import Mathlib

/-!
Verification development for the command correlation and deduplication
engine of the digital-twin-ui repository.

The embedding covers:
* `src/src/utils/CommandStateManager.js` — deduplication judge
  (`areParamsSimilar`, `isCommandExecuted`) and the execution lock
  (`acquireLock` / `releaseLock`);
* `src/src/utils/WebSocketManager.js` — response correlation
  (`handleMessage`, `sendCommand`): command-id extraction, success
  classification, pending-command registration and the timeout path;
* `src/src/utils/MCPClient.ts` — connection lifecycle (`handleOpen`,
  `handleWelcome`, `scheduleReconnect`, `startPingTimer`);
* `src/src/services/ModelControlService.ts` — the exponential-backoff
  reconnect cycle (`onopen`/`onclose` handlers and the reconnect timer);
* `src/src/components/ModelViewer.vue` — the command queue portion of
  `handleWebSocketMessage` (same-kind replacement and enqueue).

JavaScript values are modelled by the inductive `JVal`.  Numbers are
rationals: every numeric literal and threshold in the modelled code
(0.3, 15, 0.4, 0.6, 0.8, 1.0) is exactly representable, values are kept
exact rather than rounded to binary floating point, and no comparison
in any theorem sits on a rounding boundary.  `ToNumber` coercion is
modelled exactly for numbers, booleans, null, undefined, plain objects,
strings (`jsStringToNumber` below implements the StringToNumber grammar
with exact rational values) and for empty and multi-element arrays; the
string form of a one-element array is outside the model, and the one
theorem whose statement ranges over such operands excludes them
explicitly.  Reference identity of objects is not observable in a value
model; the modelled call sites only compare primitives with `===`.
-/

/-- A JavaScript/JSON value.  Objects are association lists with distinct
keys (JS objects cannot carry duplicate keys); lookup takes the first
match, which agrees with that convention. -/
inductive JVal where
  | num (q : ℚ)
  | str (s : String)
  | bool (b : Bool)
  | null
  | undefined
  | arr (xs : List JVal)
  | obj (fields : List (String × JVal))

/-- JS truthiness.  (`NaN` is absent from the model; see the header note.) -/
def JVal.truthy : JVal → Bool
  | .num q => decide (q ≠ 0)
  | .str s => decide (s ≠ "")
  | .bool b => b
  | .null => false
  | .undefined => false
  | .arr _ => true
  | .obj _ => true

/-- Whether a value is an array (`Array.isArray`). -/
def JVal.isArr : JVal → Bool
  | .arr _ => true
  | _ => false

/-- First-match lookup in an object's field list; missing keys give
`undefined`, as JS property access on an object does. -/
def objGet : List (String × JVal) → String → JVal
  | [], _ => .undefined
  | (k', v) :: rest, k => if k' == k then v else objGet rest k

/-- JS property access `v[k]`.  Arrays expose their canonical index
properties.  Index properties of strings are not modelled (no modelled
call site reads a property of a string), and property access on other
primitives yields `undefined` as in JS.  Access on `null`/`undefined`
throws in JS; every modelled call site guards such access with a
truthiness test, so the `undefined` returned here is never observed. -/
def JVal.get : JVal → String → JVal
  | .obj fs, k => objGet fs k
  | .arr xs, k =>
      match k.toNat? with
      | some i =>
          if h : i < xs.length then
            (if toString i == k then xs[i] else .undefined)
          else .undefined
      | none => .undefined
  | _, _ => .undefined

/-- `Object.keys`.  Arrays give their index strings; key properties of
primitive strings are not modelled (unused by any modelled call site). -/
def JVal.keys : JVal → List String
  | .obj fs => fs.map Prod.fst
  | .arr xs => (List.range xs.length).map toString
  | _ => []

/-!
`jsStringToNumber` implements the ECMAScript StringToNumber conversion
with exact rational values: trim WhiteSpace/LineTerminators, empty text
is 0, the text must match StrNumericLiteral as a whole (optional sign
with `Infinity` or a decimal literal with optional fraction and
exponent, or an unsigned 0x/0o/0b integer), anything else is NaN
(`none`).  `±Infinity`, and any finite magnitude at or above the JS
overflow threshold 2^1024, are also returned as `none`: at every
modelled call site the value only ever feeds an absolute-difference
comparison, where an infinite operand makes the comparison false
exactly as NaN does.  Finite values are kept exact; float rounding of
finite values (including underflow to zero and the half-ulp band just
below 2^1024) is not modelled, per the header note.
-/

/-- Code points StringToNumber trims: JS WhiteSpace (TAB, VT, FF, SP,
NBSP, BOM and the Unicode space separators) and LineTerminators (LF,
CR, LS, PS). -/
def isJsSpace (c : Char) : Bool :=
  c.val == 0x09 || c.val == 0x0A || c.val == 0x0B || c.val == 0x0C ||
  c.val == 0x0D || c.val == 0x20 || c.val == 0xA0 || c.val == 0x1680 ||
  (0x2000 ≤ c.val && c.val ≤ 0x200A) || c.val == 0x2028 ||
  c.val == 0x2029 || c.val == 0x202F || c.val == 0x205F ||
  c.val == 0x3000 || c.val == 0xFEFF

def decDigitVal (c : Char) : Option ℕ :=
  if 0x30 ≤ c.val ∧ c.val ≤ 0x39 then some (c.toNat - 0x30) else none

def hexDigitVal (c : Char) : Option ℕ :=
  if 0x30 ≤ c.val ∧ c.val ≤ 0x39 then some (c.toNat - 0x30)
  else if 0x61 ≤ c.val ∧ c.val ≤ 0x66 then some (c.toNat - 0x61 + 10)
  else if 0x41 ≤ c.val ∧ c.val ≤ 0x46 then some (c.toNat - 0x41 + 10)
  else none

def octDigitVal (c : Char) : Option ℕ :=
  if 0x30 ≤ c.val ∧ c.val ≤ 0x37 then some (c.toNat - 0x30) else none

def binDigitVal (c : Char) : Option ℕ :=
  if c.val == 0x30 then some 0
  else if c.val == 0x31 then some 1
  else none

/-- Parse a maximal run of digits in a base: value, digit count, rest. -/
def digitRun (base : ℕ) (digVal : Char → Option ℕ) :
    List Char → ℕ → ℕ → ℕ × ℕ × List Char
  | [], acc, n => (acc, n, [])
  | c :: cs, acc, n =>
      match digVal c with
      | some d => digitRun base digVal cs (acc * base + d) (n + 1)
      | none => (acc, n, c :: cs)

/-- ExponentPart: `e`/`E`, optional sign, one or more decimal digits.
When absent or malformed nothing is consumed; the leftover then fails
the whole-string requirement, as in the JS grammar. -/
def parseExponentOpt (cs : List Char) : ℤ × List Char :=
  match cs with
  | [] => (0, [])
  | c :: rest =>
      if c == 'e' || c == 'E' then
        match rest with
        | '+' :: rest2 =>
            let (v, n, rest3) := digitRun 10 decDigitVal rest2 0 0
            if n = 0 then (0, cs) else ((v : ℤ), rest3)
        | '-' :: rest2 =>
            let (v, n, rest3) := digitRun 10 decDigitVal rest2 0 0
            if n = 0 then (0, cs) else (-(v : ℤ), rest3)
        | _ =>
            let (v, n, rest3) := digitRun 10 decDigitVal rest 0 0
            if n = 0 then (0, cs) else ((v : ℤ), rest3)
      else (0, cs)

/-- StrUnsignedDecimalLiteral without the `Infinity` production:
`DecimalDigits [. DecimalDigits?] [ExponentPart]` or
`. DecimalDigits [ExponentPart]`.  The literal's exact value is returned
in scientific form as mantissa and power of ten (value =
`mant * 10^tenExp`), together with the unconsumed rest. -/
def parseUnsignedDec (cs : List Char) : Option (ℤ × ℤ × List Char) :=
  let (ival, n, rest1) := digitRun 10 decDigitVal cs 0 0
  if n = 0 then
    match rest1 with
    | '.' :: rest2 =>
        let (fval, m, rest3) := digitRun 10 decDigitVal rest2 0 0
        if m = 0 then none
        else
          let (e, rest4) := parseExponentOpt rest3
          some ((fval : ℤ), e - (m : ℤ), rest4)
    | _ => none
  else
    match rest1 with
    | '.' :: rest2 =>
        let (fval, m, rest3) := digitRun 10 decDigitVal rest2 0 0
        let (e, rest4) := parseExponentOpt rest3
        some (((ival * Nat.pow 10 m + fval : ℕ) : ℤ), e - (m : ℤ), rest4)
    | _ =>
        let (e, rest4) := parseExponentOpt rest1
        some ((ival : ℤ), e, rest4)

/-- NonDecimalIntegerLiteral: `0x`/`0X`, `0o`/`0O`, `0b`/`0B` with at
least one digit, matching the whole remaining text (no sign, no
exponent). -/
def parseNonDec (cs : List Char) : Option ℕ :=
  match cs with
  | '0' :: c :: rest =>
      let run (base : ℕ) (dv : Char → Option ℕ) : Option ℕ :=
        let (v, n, rest2) := digitRun base dv rest 0 0
        if n = 0 ∨ rest2 ≠ [] then none else some v
      if c == 'x' || c == 'X' then run 16 hexDigitVal
      else if c == 'o' || c == 'O' then run 8 octDigitVal
      else if c == 'b' || c == 'B' then run 2 binDigitVal
      else none
  | _ => none

/-- The exact rational `mant * 10^tenExp`, or `none` when its magnitude
reaches the JS overflow threshold 2^1024 (the JS value would be
±Infinity; see the block comment above).  The magnitude test
`|mant * 10^tenExp| ≥ 2^1024` is carried out on the integer mantissa
and denominator. -/
def sciToRat (mant tenExp : ℤ) : Option ℚ :=
  if 0 ≤ tenExp then
    let n : ℤ := mant * ((Nat.pow 10 tenExp.toNat : ℕ) : ℤ)
    if Nat.pow 2 1024 ≤ n.natAbs then none else some (Rat.divInt n 1)
  else
    let d : ℕ := Nat.pow 10 (-tenExp).toNat
    if Nat.pow 2 1024 * d ≤ mant.natAbs then none
    else some (Rat.divInt mant (d : ℤ))

/-- ECMAScript StringToNumber with exact rational results; see the
block comment above for the Infinity/overflow and rounding caveats. -/
def jsStringToNumber (s : String) : Option ℚ :=
  let cs := ((s.toList.dropWhile isJsSpace).reverse.dropWhile isJsSpace).reverse
  if cs = [] then some 0
  else
    match parseNonDec cs with
    | some v => sciToRat (v : ℤ) 0
    | none =>
        match cs with
        | '+' :: rest =>
            if rest = "Infinity".toList then none
            else
              match parseUnsignedDec rest with
              | some (mant, tenExp, []) => sciToRat mant tenExp
              | _ => none
        | '-' :: rest =>
            if rest = "Infinity".toList then none
            else
              match parseUnsignedDec rest with
              | some (mant, tenExp, []) => sciToRat (-mant) tenExp
              | _ => none
        | _ =>
            if cs = "Infinity".toList then none
            else
              match parseUnsignedDec cs with
              | some (mant, tenExp, []) => sciToRat mant tenExp
              | _ => none

/-- JS `ToNumber` on the values the modelled code feeds to arithmetic.
Numbers, booleans, null and undefined are direct; strings go through
`jsStringToNumber`; a plain object coerces through "[object Object]",
which is NaN — exact; an empty array coerces through "" to 0 and an
array of two or more elements joins its elements with a comma, which
can never match the numeric grammar — both exact; a one-element array
coerces through the string form of its element, which is outside this
model (`none` here), so the one theorem whose statement ranges over
array operands excludes them explicitly. -/
def JVal.toNumber : JVal → Option ℚ
  | .num q => some q
  | .str s => jsStringToNumber s
  | .bool b => some (if b then 1 else 0)
  | .null => some 0
  | .undefined => none
  | .arr [] => some 0
  | .arr [_] => none
  | .arr (_ :: _ :: _) => none
  | .obj _ => none

/-- `Math.abs(a - b) < c` with NaN comparing false. -/
def absDiffLt (a b : JVal) (c : ℚ) : Bool :=
  match a.toNumber, b.toNumber with
  | some x, some y => decide (|x - y| < c)
  | _, _ => false

/-- JS `a || b`: the first operand if truthy, otherwise the second. -/
def jsOr (a b : JVal) : JVal := if a.truthy then a else b

/-- JS `a && b`: the second operand if the first is truthy, otherwise the
first. -/
def jsAnd (a b : JVal) : JVal := if a.truthy then b else a

/-- JS `===` on the values compared by the modelled call sites, which are
always primitives (ids, axis/direction strings, booleans).  Object and
array operands compare by reference in JS; a fresh value model cannot
witness reference identity, and no modelled comparison involves one. -/
def jsStrictEq : JVal → JVal → Bool
  | .num x, .num y => x == y
  | .str a, .str b => a == b
  | .bool a, .bool b => a == b
  | .null, .null => true
  | .undefined, .undefined => true
  | _, _ => false

/-! ## CommandStateManager (src/src/utils/CommandStateManager.js) -/

/-- Constructor options of `CommandStateManager` with their defaults
(lines 8-14 and 27). -/
structure CSMOptions where
  recordTTL : ℕ := 5000
  similarityThreshold : ℚ := 4/5
  maxLockTime : ℕ := 10000

def defaultOpts : CSMOptions := {}

/-- `arePositionsSimilar` (lines 215-251).  The code compares
`Math.sqrt(s) < 1.0`; over nonnegative `s` this is exactly `s < 1`, which
is the form used here (ℚ has no square root).  The array branch returns
inside the `if`, so mixed array/object pairs fall to the coordinate
branch, whose `pos.x || 0` defaults are reproduced. -/
def sumSqDiff : List JVal → List JVal → Option ℚ
  | [], [] => some 0
  | a :: as, b :: bs => do
      let x ← a.toNumber
      let y ← b.toNumber
      let s ← sumSqDiff as bs
      pure ((x - y) ^ 2 + s)
  | _, _ => none

/-- `pos.c || 0` followed by use in arithmetic. -/
def coordNum (v : JVal) (k : String) : Option ℚ :=
  (jsOr (v.get k) (.num 0)).toNumber

def arePositionsSimilar (pos1 pos2 : JVal) : Bool :=
  match pos1, pos2 with
  | .arr xs, .arr ys =>
      if xs.length != ys.length then false
      else
        match sumSqDiff xs ys with
        | some s => decide (s < 1)
        | none => false
  | .obj fs1, .obj fs2 =>
      match coordNum (.obj fs1) "x", coordNum (.obj fs1) "y", coordNum (.obj fs1) "z",
            coordNum (.obj fs2) "x", coordNum (.obj fs2) "y", coordNum (.obj fs2) "z" with
      | some x1, some y1, some z1, some x2, some y2, some z2 =>
          decide ((x1 - x2) ^ 2 + (y1 - y2) ^ 2 + (z1 - z2) ^ 2 < 1)
      | _, _, _, _, _, _ => false
  | .arr xs, .obj fs2 =>
      match coordNum (.arr xs) "x", coordNum (.arr xs) "y", coordNum (.arr xs) "z",
            coordNum (.obj fs2) "x", coordNum (.obj fs2) "y", coordNum (.obj fs2) "z" with
      | some x1, some y1, some z1, some x2, some y2, some z2 =>
          decide ((x1 - x2) ^ 2 + (y1 - y2) ^ 2 + (z1 - z2) ^ 2 < 1)
      | _, _, _, _, _, _ => false
  | .obj fs1, .arr ys =>
      match coordNum (.obj fs1) "x", coordNum (.obj fs1) "y", coordNum (.obj fs1) "z",
            coordNum (.arr ys) "x", coordNum (.arr ys) "y", coordNum (.arr ys) "z" with
      | some x1, some y1, some z1, some x2, some y2, some z2 =>
          decide ((x1 - x2) ^ 2 + (y1 - y2) ^ 2 + (z1 - z2) ^ 2 < 1)
      | _, _, _, _, _, _ => false
  | _, _ => false

/-!
`areValuesSimilar` and `calculateParamSimilarity` (lines 259-331) are
mutually recursive through nested object values.  The Lean counterparts
take a fuel argument consumed once per recursive call; the wrapper below
passes `2 ^ 200`, which strictly exceeds the number of recursive calls
any physically realizable execution of the source could make, so the
fuel-exhaustion defaults are unreachable on every input the source can
actually evaluate and the functions compute exactly what the JS code
computes.
-/

mutual

/-- `areValuesSimilar` (lines 297-331).  The `typeof` discrimination is
realised by the constructor match: mismatched constructors of different
JS `typeof` return false, both-`null` returns `val1 === val2 = true`,
`null` against an object/array compares unequal references, arrays of
equal length compare elementwise, and the remaining object-typed pairs
recurse through `calculateParamSimilarity`. -/
def areValuesSimilarF : ℕ → ℚ → JVal → JVal → Bool
  | 0, _, _, _ => false
  | fuel + 1, thr, v1, v2 =>
      match v1, v2 with
      | .num x, .num y => decide (|x - y| < 3/10 * max |x| |y|)
      | .str a, .str b => a == b
      | .bool a, .bool b => a == b
      | .null, .null => true
      | .null, .arr _ => false
      | .null, .obj _ => false
      | .arr _, .null => false
      | .obj _, .null => false
      | .arr xs, .arr ys =>
          xs.length == ys.length && areValuesListF fuel thr xs ys
      | .arr xs, .obj gs =>
          decide (calcParamSimilarityF fuel thr (.arr xs) (.obj gs) ≥ thr)
      | .obj fs, .arr ys =>
          decide (calcParamSimilarityF fuel thr (.obj fs) (.arr ys) ≥ thr)
      | .obj fs, .obj gs =>
          decide (calcParamSimilarityF fuel thr (.obj fs) (.obj gs) ≥ thr)
      | .undefined, .undefined => true
      | _, _ => false

/-- Elementwise loop of the array branch (lines 319-321); the lengths are
already known equal when it runs. -/
def areValuesListF : ℕ → ℚ → List JVal → List JVal → Bool
  | _, _, [], [] => true
  | fuel + 1, thr, x :: xs, y :: ys =>
      areValuesSimilarF fuel thr x y && areValuesListF fuel thr xs ys
  | _, _, _, _ => false

/-- Count of common keys whose values compare similar (lines 278-284). -/
def countSimilarF : ℕ → ℚ → JVal → JVal → List String → ℕ
  | _, _, _, _, [] => 0
  | fuel + 1, thr, p1, p2, k :: ks =>
      (if areValuesSimilarF fuel thr (p1.get k) (p2.get k) then 1 else 0) +
        countSimilarF fuel thr p1 p2 ks
  | 0, _, _, _, _ :: _ => 0

/-- `calculateParamSimilarity` (lines 259-289): Jaccard similarity of the
key sets weighted 0.4 plus the fraction of similar common values
weighted 0.6. -/
def calcParamSimilarityF : ℕ → ℚ → JVal → JVal → ℚ
  | 0, _, _, _ => 0
  | fuel + 1, thr, p1, p2 =>
      let keys1 := p1.keys
      let keys2 := p2.keys
      if keys1.length = 0 ∧ keys2.length = 0 then 1
      else if keys1.length = 0 ∨ keys2.length = 0 then 0
      else
        let commonKeys := keys1.filter (fun k => keys2.contains k)
        let unionSize := (keys1 ++ keys2).dedup.length
        let keysSimilarity := (commonKeys.length : ℚ) / unionSize
        let valuesSimilarity :=
          if 0 < commonKeys.length then
            (countSimilarF fuel thr p1 p2 commonKeys : ℚ) / commonKeys.length
          else 0
        keysSimilarity * (2/5) + valuesSimilarity * (3/5)

end

/-- Fuel strictly above the number of recursive calls any terminating
execution of the source could make. -/
def similarityFuel : ℕ := 2 ^ 200

/-- Top-level entry of `calculateParamSimilarity`. -/
def calculateParamSimilarity (thr : ℚ) (p1 p2 : JVal) : ℚ :=
  calcParamSimilarityF similarityFuel thr p1 p2

/-- `areParamsSimilar` (lines 161-207).  JS default parameters replace an
`undefined` argument by `{}`. -/
def areParamsSimilar (opts : CSMOptions) (params1 params2 : JVal)
    (operation : String) : Bool :=
  let p1 := match params1 with | .undefined => .obj [] | v => v
  let p2 := match params2 with | .undefined => .obj [] | v => v
  if !p1.truthy || !p2.truthy then false
  else if p1.keys.length == 0 && p2.keys.length == 0 then true
  else
    match operation with
    | "focus" =>
        if (p1.get "targetId").truthy && (p2.get "targetId").truthy then
          jsStrictEq (p1.get "targetId") (p2.get "targetId")
        else if (p1.get "position").truthy && (p2.get "position").truthy then
          arePositionsSimilar (p1.get "position") (p2.get "position")
        else false
    | "zoom" =>
        if (p1.get "direction").truthy && (p2.get "direction").truthy then
          jsStrictEq (p1.get "direction") (p2.get "direction") &&
            absDiffLt (p1.get "distance") (p2.get "distance") (3/10)
        else if (p1.get "value").truthy && (p2.get "value").truthy then
          absDiffLt (p1.get "value") (p2.get "value") (3/10)
        else false
    | "rotate" =>
        if (p1.get "axis").truthy && (p2.get "axis").truthy &&
            (p1.get "angle").truthy && (p2.get "angle").truthy then
          jsStrictEq (p1.get "axis") (p2.get "axis") &&
            absDiffLt (p1.get "angle") (p2.get "angle") 15
        else false
    | "reset" => true
    | _ =>
        decide (calculateParamSimilarity opts.similarityThreshold p1 p2 ≥
          opts.similarityThreshold)

/-- One entry of `this.executedCommands` (its `Object.values` view). -/
structure ExecRecord where
  operation : String
  params : JVal
  timestamp : ℕ

/-- `isCommandExecuted` (lines 138-152): filter the executed records to
those of the same operation inside the retention window, then test any
for parameter similarity. -/
def isCommandExecuted (opts : CSMOptions) (executedCommands : List ExecRecord)
    (operation : String) (params : JVal) (now : ℕ) : Bool :=
  ((executedCommands.filter fun cmd =>
      cmd.operation == operation &&
        decide (now - cmd.timestamp < opts.recordTTL)).any
    fun cmd => areParamsSimilar opts cmd.params params operation)

/-- The lock fields of `CommandStateManager` (`locked`, `lockTimestamp`).
The watchdog `setTimeout` id is not part of the state: the watchdog only
releases the lock earlier than the expiry test inside `acquireLock`
would, and no theorem below depends on it. -/
structure LockState where
  locked : Bool
  lockTimestamp : Option ℕ

/-- `releaseLock` (lines 364-373). -/
def releaseLock (_st : LockState) : LockState := ⟨false, none⟩

/-- `acquireLock` (lines 337-359) at time `now`: an expired lock is
force-released and immediately re-acquired for the caller; an unexpired
one refuses; a free lock is taken.  Both `Date.now()` reads inside the
method happen on the same tick and are modelled by the single `now`. -/
def acquireLock (maxLockTime : ℕ) (now : ℕ) (st : LockState) :
    Bool × LockState :=
  if st.locked then
    if now - (st.lockTimestamp.getD 0) > maxLockTime then
      (true, ⟨true, some now⟩)
    else (false, st)
  else (true, ⟨true, some now⟩)

/-! ## WebSocketManager (src/src/utils/WebSocketManager.js) -/

/-- The command-id extraction of `handleMessage` (lines 111-116): the
`||` chain `data.command_id || data.commandId || (data.command &&
data.command.id) || (data.result && data.result.command_id) || data.id`. -/
def extractCommandId (data : JVal) : JVal :=
  jsOr (data.get "command_id")
    (jsOr (data.get "commandId")
      (jsOr (jsAnd (data.get "command") ((data.get "command").get "id"))
        (jsOr (jsAnd (data.get "result") ((data.get "result").get "command_id"))
          (data.get "id"))))

/-- The success classification of `handleMessage` (lines 127-131). -/
def isSuccessResp (data : JVal) : Bool :=
  jsStrictEq (data.get "success") (.bool true) ||
  jsStrictEq (data.get "status") (.str "success") ||
  ((data.get "result").truthy &&
    jsStrictEq ((data.get "result").get "success") (.bool true)) ||
  (jsStrictEq (data.get "type") (.str "mcp.response") &&
    jsStrictEq (data.get "status") (.str "success"))

/-- The spec's reading of the id extraction: an ordered list of known
locations, tried in sequence. -/
def idLocators : List (JVal → JVal) :=
  [fun d => d.get "command_id",
   fun d => d.get "commandId",
   fun d => jsAnd (d.get "command") ((d.get "command").get "id"),
   fun d => jsAnd (d.get "result") ((d.get "result").get "command_id"),
   fun d => d.get "id"]

/-- The spec's reading of the success classification, as a predicate. -/
def specSuccess (d : JVal) : Prop :=
  d.get "success" = .bool true ∨
  d.get "status" = .str "success" ∨
  ((d.get "result").truthy = true ∧ (d.get "result").get "success" = .bool true) ∨
  (d.get "type" = .str "mcp.response" ∧ d.get "status" = .str "success")

/-- One entry of `this.pendingCommands` (`sendCommand`, lines 289-294);
the `resolve`/`reject` closures live in the promise model below. -/
structure PendingEntry where
  timestamp : ℕ
  command : JVal

/-- JS `Map.set` (used by `sendCommand` line 289 to register a pending
command): replace the value of an existing key in place, else append. -/
def registerPending : List (String × PendingEntry) → String → PendingEntry →
    List (String × PendingEntry)
  | [], k, v => [(k, v)]
  | (k', v') :: rest, k, v =>
      if k' == k then (k, v) :: rest else (k', v') :: registerPending rest k v

/-- JS `Map.get`. -/
def pendingGet : List (String × PendingEntry) → String → Option PendingEntry
  | [], _ => none
  | (k', v) :: rest, k => if k' == k then some v else pendingGet rest k

/-!
Lifecycle of one pending command's completion handle.  After
`sendCommand` registers the command, two kinds of events can touch it:

* a matching response: `handleMessage` (lines 119-140) finds the id in
  `pendingCommands`, calls `resolve(data)` whatever the success flag,
  and deletes the entry; a message whose id is absent from the map is
  logged and discarded (lines 141-146) — no exception, no resolution;
* the 5-second timer armed at send time (lines 302-314): if the id is
  still in the map it calls `resolve` with the timeout result and
  deliberately keeps the entry ("不删除命令，允许晚到的响应仍然处理").

`resolve` is the executor resolve of the promise returned by
`sendCommand`; per JS promise semantics a second call to it is a no-op.
The state below tracks map membership, the promise's settlement, and the
number of settling (effective) resolve calls.
-/

inductive WsEvent where
  | response (data : JVal)
  | timeoutFire

inductive Outcome where
  | response (data : JVal)
  | timeout

structure CmdState where
  inMap : Bool
  handle : Option Outcome
  effectiveResolves : ℕ

/-- The executor `resolve`: settles the promise on first call, no-op on
any later call (JS promise semantics). -/
def jsResolve (r : Outcome) (st : CmdState) : CmdState :=
  match st.handle with
  | some _ => st
  | none => { st with handle := some r, effectiveResolves := st.effectiveResolves + 1 }

/-- One event against one registered command. -/
def stepCmd (st : CmdState) (e : WsEvent) : CmdState :=
  match e with
  | .response d =>
      if st.inMap then { jsResolve (.response d) st with inMap := false }
      else st
  | .timeoutFire =>
      if st.inMap then jsResolve .timeout st
      else st

/-- The state of a command just registered by `sendCommand`. -/
def initialCmdState : CmdState := ⟨true, none, 0⟩

def runCmd (events : List WsEvent) : CmdState :=
  events.foldl stepCmd initialCmdState

/-- The data of the first matching response in a list of events. -/
def firstResponseData : List WsEvent → Option JVal
  | [] => none
  | .response d :: _ => some d
  | .timeoutFire :: es => firstResponseData es

/-! ## MCPClient (src/src/utils/MCPClient.ts) -/

inductive MCPStatus where
  | disconnected
  | connecting
  | connected
  | reconnecting
  | error
deriving DecidableEq

/-- `MCPClientConfig` with the constructor defaults (lines 94-100). -/
structure MCPConfig where
  autoReconnect : Bool := true
  reconnectDelay : ℕ := 3000
  maxReconnectAttempts : ℕ := 5
  pingInterval : ℕ := 30000

/-- The mutable client fields the modelled methods touch.  Timers are
booleans (armed or not); the delay a `setTimeout` was armed with is
returned by the scheduling function itself. -/
structure MCPState where
  status : MCPStatus
  connectedRef : Bool
  reconnectAttempts : ℕ
  lastActivity : ℕ
  pingTimerActive : Bool
  reconnectTimerActive : Bool
  clientId : JVal

/-- `setStatus` (lines 278-308): updates the internal status and the
`connected` ref. -/
def setStatus (st : MCPState) (s : MCPStatus) : MCPState :=
  { st with status := s, connectedRef := s == .connected }

/-- `clearTimers` (lines 350-360). -/
def clearTimers (st : MCPState) : MCPState :=
  { st with pingTimerActive := false, reconnectTimerActive := false }

/-- `startPingTimer` (lines 331-347). -/
def startPingTimer (cfg : MCPConfig) (st : MCPState) : MCPState :=
  let st1 := clearTimers st
  if 0 < cfg.pingInterval then { st1 with pingTimerActive := true } else st1

/-- `handleOpen` (lines 363-372): reset the attempt counter, refresh
activity, start the ping timer.  The status is deliberately left
untouched ("这里不立即设置状态为connected"). -/
def handleOpen (cfg : MCPConfig) (now : ℕ) (st : MCPState) : MCPState :=
  startPingTimer cfg { st with reconnectAttempts := 0, lastActivity := now }

/-- `handleWelcome` (lines 435-443): store the client id and set status
`connected` (the `sendInit` call only writes to the wire). -/
def handleWelcome (message : JVal) (st : MCPState) : MCPState :=
  setStatus { st with clientId := jsOr (message.get "clientId") .null } .connected

/-- `handleConnectionEstablished` (lines 445-450). -/
def handleConnectionEstablished (message : JVal) (st : MCPState) : MCPState :=
  setStatus { st with clientId := jsOr (message.get "clientId") st.clientId } .connected

/-- `scheduleReconnect` (lines 311-328): refuse when auto-reconnect is
off or the attempt counter has reached `maxReconnectAttempts || 5`;
otherwise clear timers, increment the counter, set status
`reconnecting`, and arm a timer for `reconnectDelay || 3000`
milliseconds.  Returns the armed delay with the new state, or `none`
when reconnection stops. -/
def scheduleReconnect (cfg : MCPConfig) (st : MCPState) :
    Option (ℕ × MCPState) :=
  let maxA := if cfg.maxReconnectAttempts = 0 then 5 else cfg.maxReconnectAttempts
  if !cfg.autoReconnect || maxA ≤ st.reconnectAttempts then none
  else
    let st1 := clearTimers st
    let st2 := setStatus { st1 with reconnectAttempts := st1.reconnectAttempts + 1 }
      .reconnecting
    let d := if cfg.reconnectDelay = 0 then 3000 else cfg.reconnectDelay
    some (d, { st2 with reconnectTimerActive := true })

/-! ## ModelControlService (src/src/services/ModelControlService.ts)

This module is the reconnect implementation that carries the engine's
exponential backoff: its `onclose` handler (lines 60-82) schedules a
reconnect after `Math.min(1000 * Math.pow(2, reconnectAttempts), 30000)`
milliseconds while the attempt counter is below
`MAX_RECONNECT_ATTEMPTS`, the armed timer's callback (lines 74-77)
increments the counter and retries, and `onopen` (lines 40-52) resets
the counter to 0.  (The `WebSocketManager`/`MCPClient` reconnect paths
above are the repository's fixed-delay variants of the same logic.)
-/

inductive MCSStatus where
  | disconnected
  | connecting
  | connected
  | error
deriving DecidableEq

/-- `MAX_RECONNECT_ATTEMPTS` (line 20). -/
def MAX_RECONNECT_ATTEMPTS : ℕ := 5

/-- The module-level connection state of `ModelControlService` (lines
13-20): the status and error refs, the attempt counter and the
reconnect timer.  The WebSocket instance itself is external. -/
structure MCSState where
  connectionStatus : MCSStatus
  connectionError : Option String
  reconnectAttempts : ℕ
  reconnectTimerArmed : Bool

/-- The `onclose` handler (lines 60-82): status becomes `disconnected`;
below the maximum attempt count a reconnect timer is armed for
`min(1000 * 2^reconnectAttempts, 30000)` milliseconds (the armed delay
is returned); at the maximum, reconnection stops and the terminal error
message is surfaced. -/
def handleCloseMCS (st : MCSState) : Option ℕ × MCSState :=
  let st1 := { st with connectionStatus := MCSStatus.disconnected }
  if st1.reconnectAttempts < MAX_RECONNECT_ATTEMPTS then
    (some (min (1000 * 2 ^ st1.reconnectAttempts) 30000),
      { st1 with reconnectTimerArmed := true })
  else
    (none, { st1 with connectionError := some "连接服务失败，请刷新页面重试" })

/-- The body of the armed reconnect timer (lines 74-77): increment the
attempt counter, then start a new connection attempt (whose own
transitions belong to `initWebSocketConnection`). -/
def reconnectTimerFire (st : MCSState) : MCSState :=
  { st with
      reconnectAttempts := st.reconnectAttempts + 1
      reconnectTimerArmed := false }

/-- The `onopen` handler (lines 40-52): status `connected`, error
cleared, attempt counter reset to 0 (the init message only writes to
the wire). -/
def handleOpenMCS (st : MCSState) : MCSState :=
  { st with
      connectionStatus := MCSStatus.connected
      connectionError := none
      reconnectAttempts := 0 }

/-- The delays armed by successive failed connection cycles: each
closure arms the timer, the timer fires (incrementing the counter), and
the next attempt again closes without success. -/
def mcsDelays : ℕ → MCSState → List ℕ
  | 0, _ => []
  | k + 1, st =>
      match (handleCloseMCS st).1 with
      | some d => d :: mcsDelays k (reconnectTimerFire (handleCloseMCS st).2)
      | none => []

/-! ## ModelViewer command queue (src/src/components/ModelViewer.vue) -/

/-- One entry of `commandQueue` as pushed by `handleWebSocketMessage`. -/
structure QCmd where
  id : String
  operation : String
  params : JVal
  timestamp : ℕ

/-- The `focus`/`reset` replacement step (lines 2057-2063): `findIndex`
of the first queued command of the same operation followed by
`splice(index, 1)` when found — that composite is exactly removal of the
first same-operation entry, a no-op when none exists. -/
def removeFirstSameOp : List QCmd → String → List QCmd
  | [], _ => []
  | c :: cs, operationType =>
      if c.operation == operationType then cs
      else c :: removeFirstSameOp cs operationType

/-- The queue portion of `handleWebSocketMessage` (lines 2046-2082): skip
a command similar to a recently executed one; for `focus`/`reset` remove
the first queued command of the same kind; skip if a similar same-kind
command is still queued (after that removal); otherwise push the new
entry at the tail. -/
def enqueueCommand (opts : CSMOptions) (executedCommands : List ExecRecord)
    (now : ℕ) (commandQueue : List QCmd) (operationType : String)
    (commandParams : JVal) (commandId : String) : List QCmd :=
  if isCommandExecuted opts executedCommands operationType commandParams now then
    commandQueue
  else
    let q1 := if operationType == "focus" || operationType == "reset" then
        removeFirstSameOp commandQueue operationType
      else commandQueue
    if q1.any (fun cmd => cmd.operation == operationType &&
        areParamsSimilar opts cmd.params commandParams operationType) then q1
    else q1 ++ [⟨commandId, operationType, commandParams, now⟩]

/-- Zoom parameter objects with string-valued distances, exercising the
numeric-string coercion path of the zoom rule. -/
def zoomP1 : List (String × JVal) := [("direction", .str "in"), ("distance", .str "0.1")]

def zoomP2 : List (String × JVal) := [("direction", .str "in"), ("distance", .str "0.2")]

/-! ## Helper lemmas -/

theorem jsStrictEq_bool_true_iff (v : JVal) :
    jsStrictEq v (.bool true) = true ↔ v = .bool true := by
  cases v <;> simp [jsStrictEq]

theorem jsStrictEq_str_iff (v : JVal) (s : String) :
    jsStrictEq v (.str s) = true ↔ v = .str s := by
  cases v <;> simp [jsStrictEq]

theorem absDiffLt_eq_true_iff (a b : JVal) (c : ℚ) :
    absDiffLt a b c = true ↔
      ∃ x y : ℚ, a.toNumber = some x ∧ b.toNumber = some y ∧ |x - y| < c := by
  unfold absDiffLt
  cases ha : a.toNumber <;> cases hb : b.toNumber <;> simp

/-- A settled promise is never touched again: any later event preserves
the handle and the effective-resolve count. -/
theorem stepCmd_settled (st : CmdState) (e : WsEvent) (r : Outcome)
    (h : st.handle = some r) :
    (stepCmd st e).handle = some r ∧
    (stepCmd st e).effectiveResolves = st.effectiveResolves := by
  cases e with
  | response d =>
      by_cases hm : st.inMap
      · simp [stepCmd, hm, jsResolve, h]
      · simp [stepCmd, hm, h]
  | timeoutFire =>
      by_cases hm : st.inMap
      · simp [stepCmd, hm, jsResolve, h]
      · simp [stepCmd, hm, h]

theorem foldl_settled (evs : List WsEvent) (st : CmdState) (r : Outcome)
    (h : st.handle = some r) :
    (evs.foldl stepCmd st).handle = some r ∧
    (evs.foldl stepCmd st).effectiveResolves = st.effectiveResolves := by
  induction evs generalizing st with
  | nil => exact ⟨h, rfl⟩
  | cons e es ih =>
      obtain ⟨h1, h2⟩ := stepCmd_settled st e r h
      obtain ⟨h3, h4⟩ := ih (stepCmd st e) h1
      exact ⟨by simpa using h3, by simpa [h2] using h4⟩

theorem removeFirstSameOp_no_match (q : List QCmd) (op : String)
    (h : ∀ c ∈ q, c.operation ≠ op) : removeFirstSameOp q op = q := by
  induction q with
  | nil => rfl
  | cons c cs ih =>
      have hc : (c.operation == op) = false := by
        simpa using h c (List.mem_cons_self c cs)
      simp [removeFirstSameOp, hc]
      exact ih fun x hx => h x (List.mem_cons_of_mem c hx)

theorem removeFirstSameOp_append_match (q : List QCmd) (x : QCmd) (op : String)
    (h : ∀ c ∈ q, c.operation ≠ op) (hx : x.operation = op) :
    removeFirstSameOp (q ++ [x]) op = q := by
  induction q with
  | nil => simp [removeFirstSameOp, hx]
  | cons c cs ih =>
      have hc : (c.operation == op) = false := by
        simpa using h c (List.mem_cons_self c cs)
      simp [removeFirstSameOp, hc]
      exact ih fun y hy => h y (List.mem_cons_of_mem c hy)

/-! ## C1 — execution-lock force release -/

/-- C1: a held lock whose hold time exceeds `maxLockTime` is
force-released by a subsequent `acquireLock`, which returns true and
re-acquires for the caller; consequently, if an `acquireLock` succeeds
at `s0` and `releaseLock` is never called, an `acquireLock` attempted
more than `maxLockTime` later always succeeds — no permanent
deadlock. -/
theorem lock_force_release_no_deadlock (mx s0 s1 : ℕ) (st stHeld : LockState)
    (hacq : (acquireLock mx s0 st).1 = true) (hlate : s1 - s0 > mx)
    (hheld : stHeld.locked = true) (hts : stHeld.lockTimestamp = some s0) :
    acquireLock mx s1 stHeld = (true, ⟨true, some s1⟩) ∧
    acquireLock mx s1 (acquireLock mx s0 st).2 = (true, ⟨true, some s1⟩) := by
  have hdirect : ∀ st' : LockState, st'.locked = true →
      st'.lockTimestamp = some s0 →
      acquireLock mx s1 st' = (true, ⟨true, some s1⟩) := by
    intro st' hl hl2
    simp [acquireLock, hl, hl2, hlate]
  refine ⟨hdirect stHeld hheld hts, ?_⟩
  have hsnd : (acquireLock mx s0 st).2 = ⟨true, some s0⟩ := by
    unfold acquireLock at hacq ⊢
    by_cases hl : st.locked
    · by_cases he : s0 - st.lockTimestamp.getD 0 > mx
      · simp [hl, he]
      · simp [hl, he] at hacq
    · simp [hl]
  rw [hsnd]
  exact hdirect ⟨true, some s0⟩ rfl rfl

theorem lock_force_release_no_deadlock_witness :
    acquireLock 10000 20001 ⟨true, some 0⟩ = (true, ⟨true, some 20001⟩) ∧
    acquireLock 10000 20001 (acquireLock 10000 0 ⟨false, none⟩).2 =
      (true, ⟨true, some 20001⟩) :=
  lock_force_release_no_deadlock 10000 0 20001 ⟨false, none⟩ ⟨true, some 0⟩
    rfl (by decide) rfl rfl

/-! ## C10 — empty-versus-empty similarity precedes every kind rule -/

/-- C10: for every operation kind, two empty parameter objects are judged
similar before any kind-specific rule is consulted, so a parameterless
command repeated while a same-kind empty-parameter record sits inside
the retention window is always judged already executed. -/
theorem empty_params_always_duplicate (opts : CSMOptions) (op : String)
    (executedCommands : List ExecRecord) (r : ExecRecord) (now : ℕ)
    (hmem : r ∈ executedCommands) (hop : r.operation = op)
    (hts : now - r.timestamp < opts.recordTTL) (hp : r.params = .obj []) :
    areParamsSimilar opts (.obj []) (.obj []) op = true ∧
    isCommandExecuted opts executedCommands op (.obj []) now = true := by
  refine ⟨rfl, ?_⟩
  unfold isCommandExecuted
  rw [List.any_eq_true]
  refine ⟨r, List.mem_filter.mpr ⟨hmem, by simp [hop, hts]⟩, ?_⟩
  rw [hp]
  rfl

theorem empty_params_always_duplicate_witness :
    areParamsSimilar defaultOpts (.obj []) (.obj []) "reset" = true ∧
    isCommandExecuted defaultOpts [⟨"reset", .obj [], 0⟩] "reset"
      (.obj []) 100 = true :=
  empty_params_always_duplicate defaultOpts "reset" _ ⟨"reset", .obj [], 0⟩ 100
    (by simp) rfl (by decide) rfl

/-! ## C5 — rotate similarity -/

/-- C5 counterexample: rotate with angle 0 against rotate with angle 5 on
the same axis — the angles differ by 5° < 15° and the first record sits
inside the retention window, yet the judge does not report a duplicate,
because `params1.angle && params2.angle` is falsy for angle 0 and the
rotate rule is skipped. -/
theorem rotate_zero_angle_not_duplicate :
    isCommandExecuted defaultOpts
      [⟨"rotate", .obj [("axis", .str "left"), ("angle", .num 0)], 0⟩]
      "rotate" (.obj [("axis", .str "left"), ("angle", .num 5)]) 2000 = false ∧
    |(0 : ℚ) - 5| < 15 := by
  refine ⟨by decide, by norm_num⟩

/-- C5 amended: for every pair of rotate commands carrying the same
non-empty axis string and nonzero numeric angles differing by less than
15 degrees, with the first completed inside the retention window, the
duplicate check judges the second a duplicate. -/
theorem rotate_similar_judged_duplicate (opts : CSMOptions)
    (executedCommands : List ExecRecord) (r : ExecRecord) (now : ℕ)
    (fs1 fs2 : List (String × JVal)) (ax : String) (a1 a2 : ℚ)
    (hmem : r ∈ executedCommands) (hop : r.operation = "rotate")
    (hts : now - r.timestamp < opts.recordTTL)
    (hp : r.params = .obj fs1)
    (h1 : objGet fs1 "axis" = .str ax) (h2 : objGet fs2 "axis" = .str ax)
    (hax : ax ≠ "")
    (g1 : objGet fs1 "angle" = .num a1) (g2 : objGet fs2 "angle" = .num a2)
    (ha1 : a1 ≠ 0) (ha2 : a2 ≠ 0) (hdiff : |a1 - a2| < 15) :
    isCommandExecuted opts executedCommands "rotate" (.obj fs2) now = true := by
  unfold isCommandExecuted
  rw [List.any_eq_true]
  refine ⟨r, List.mem_filter.mpr ⟨hmem, by simp [hop, hts]⟩, ?_⟩
  rw [hp]
  have hfs1 : fs1 ≠ [] := by
    intro hnil
    rw [hnil] at h1
    simp [objGet] at h1
  unfold areParamsSimilar
  simp only [JVal.truthy, JVal.keys, JVal.get, Bool.not_true, Bool.or_self,
    Bool.false_or, if_neg]
  rw [if_neg (by simp), if_neg (by simp [List.length_eq_zero, hfs1])]
  simp only [JVal.get, h1, h2, g1, g2]
  rw [if_pos (by simp [JVal.truthy, hax, ha1, ha2])]
  simp [jsStrictEq, absDiffLt, JVal.toNumber, hdiff]

theorem rotate_similar_judged_duplicate_witness :
    isCommandExecuted defaultOpts
      [⟨"rotate", .obj [("axis", .str "left"), ("angle", .num 45)], 0⟩]
      "rotate" (.obj [("axis", .str "left"), ("angle", .num 50)]) 2000 = true :=
  rotate_similar_judged_duplicate defaultOpts _ ⟨"rotate",
      .obj [("axis", .str "left"), ("angle", .num 45)], 0⟩ 2000
    [("axis", .str "left"), ("angle", .num 45)]
    [("axis", .str "left"), ("angle", .num 50)] "left" 45 50
    (by simp) rfl (by decide) rfl rfl rfl (by decide) rfl rfl
    (by norm_num) (by norm_num) (by norm_num)


/-! ## C6 — zoom similarity -/

/-- C6 counterexample: two zoom commands whose `scale` values differ by
0.1 < 0.3, the first completed inside the retention window — the claim
judges them duplicates, but the code compares the `value` field, never
`scale`, so the check reports no duplicate. -/
theorem zoom_scale_close_not_judged_duplicate :
    isCommandExecuted defaultOpts
      [⟨"zoom", .obj [("scale", .num (3/2))], 0⟩]
      "zoom" (.obj [("scale", .num (8/5))]) 1000 = false ∧
    |(3 : ℚ)/2 - 8/5| < 3/10 := by
  refine ⟨by decide, ?_⟩
  rw [abs_sub_lt_iff]
  constructor <;> norm_num

/-- C6 amended: a pair of zoom parameter objects — with distance and
value fields that are not arrays, whose one-element coercion is outside
the model — is judged similar exactly when both objects are empty, or
both carry truthy `direction` fields that compare strictly equal and
`distance` fields whose JS numeric coercions differ by less than 0.3,
or not both carry truthy `direction` fields and both carry truthy
`value` fields whose coercions differ by less than 0.3.  Numeric
strings coerce (distance "0.1" against "0.2" is judged similar); the
`scale` field is never consulted, so zoom(scale=1.5) followed by
zoom(scale=2.5) is not suppressed, and neither is any other scale-keyed
pair. -/
theorem zoom_similar_iff (opts : CSMOptions) (fs1 fs2 : List (String × JVal))
    (hda1 : (objGet fs1 "distance").isArr = false)
    (hda2 : (objGet fs2 "distance").isArr = false)
    (hva1 : (objGet fs1 "value").isArr = false)
    (hva2 : (objGet fs2 "value").isArr = false) :
    areParamsSimilar opts (.obj fs1) (.obj fs2) "zoom" = true ↔
      (fs1 = [] ∧ fs2 = []) ∨
      ((objGet fs1 "direction").truthy = true ∧
        (objGet fs2 "direction").truthy = true ∧
        jsStrictEq (objGet fs1 "direction") (objGet fs2 "direction") = true ∧
        (∃ d1 d2 : ℚ, (objGet fs1 "distance").toNumber = some d1 ∧
          (objGet fs2 "distance").toNumber = some d2 ∧ |d1 - d2| < 3/10)) ∨
      (¬((objGet fs1 "direction").truthy = true ∧
          (objGet fs2 "direction").truthy = true) ∧
        (objGet fs1 "value").truthy = true ∧
        (objGet fs2 "value").truthy = true ∧
        (∃ v1 v2 : ℚ, (objGet fs1 "value").toNumber = some v1 ∧
          (objGet fs2 "value").toNumber = some v2 ∧ |v1 - v2| < 3/10)) := by
  unfold areParamsSimilar
  rw [if_neg (by simp [JVal.truthy])]
  by_cases he1 : fs1 = []
  · by_cases he2 : fs2 = []
    · subst he1; subst he2
      rw [if_pos (by simp [JVal.keys])]
      simp [objGet, JVal.truthy]
    · subst he1
      rw [if_neg (by simp [JVal.keys, List.length_eq_zero, he2])]
      simp only [JVal.get, objGet, JVal.truthy]
      rw [if_neg (by simp), if_neg (by simp)]
      simp [he2, JVal.truthy]
  · rw [if_neg (by simp [JVal.keys, List.length_eq_zero, he1])]
    have hne : ¬(fs1 = [] ∧ fs2 = []) := fun h => he1 h.1
    simp only [JVal.get]
    by_cases hd1 : (objGet fs1 "direction").truthy = true
    · by_cases hd2 : (objGet fs2 "direction").truthy = true
      · rw [if_pos (by rw [Bool.and_eq_true]; exact ⟨hd1, hd2⟩)]
        simp only [Bool.and_eq_true, absDiffLt_eq_true_iff]
        constructor
        · rintro ⟨hs, d1, d2, hg1, hg2, hlt⟩
          exact Or.inr (Or.inl ⟨hd1, hd2, hs, d1, d2, hg1, hg2, hlt⟩)
        · rintro (h | ⟨_, _, hs, d1, d2, hg1, hg2, hlt⟩ | ⟨hnd, _⟩)
          · exact absurd h hne
          · exact ⟨hs, d1, d2, hg1, hg2, hlt⟩
          · exact absurd ⟨hd1, hd2⟩ hnd
      · rw [if_neg (by rw [Bool.and_eq_true]; exact fun h => hd2 h.2)]
        by_cases hv1 : (objGet fs1 "value").truthy = true
        · by_cases hv2 : (objGet fs2 "value").truthy = true
          · rw [if_pos (by rw [Bool.and_eq_true]; exact ⟨hv1, hv2⟩)]
            rw [absDiffLt_eq_true_iff]
            constructor
            · rintro ⟨v1, v2, hg1, hg2, hlt⟩
              exact Or.inr (Or.inr ⟨fun h => hd2 h.2, hv1, hv2, v1, v2, hg1, hg2, hlt⟩)
            · rintro (h | ⟨_, hd2', _⟩ | ⟨_, _, _, v1, v2, hg1, hg2, hlt⟩)
              · exact absurd h hne
              · exact absurd hd2' hd2
              · exact ⟨v1, v2, hg1, hg2, hlt⟩
          · rw [if_neg (by rw [Bool.and_eq_true]; exact fun h => hv2 h.2)]
            simp only [Bool.false_eq_true, false_iff]
            rintro (h | ⟨_, hd2', _⟩ | ⟨_, _, hv2', _⟩)
            · exact absurd h hne
            · exact absurd hd2' hd2
            · exact absurd hv2' hv2
        · rw [if_neg (by rw [Bool.and_eq_true]; exact fun h => hv1 h.1)]
          simp only [Bool.false_eq_true, false_iff]
          rintro (h | ⟨_, hd2', _⟩ | ⟨_, hv1', _⟩)
          · exact absurd h hne
          · exact absurd hd2' hd2
          · exact absurd hv1' hv1
    · rw [if_neg (by rw [Bool.and_eq_true]; exact fun h => hd1 h.1)]
      by_cases hv1 : (objGet fs1 "value").truthy = true
      · by_cases hv2 : (objGet fs2 "value").truthy = true
        · rw [if_pos (by rw [Bool.and_eq_true]; exact ⟨hv1, hv2⟩)]
          rw [absDiffLt_eq_true_iff]
          constructor
          · rintro ⟨v1, v2, hg1, hg2, hlt⟩
            exact Or.inr (Or.inr ⟨fun h => hd1 h.1, hv1, hv2, v1, v2, hg1, hg2, hlt⟩)
          · rintro (h | ⟨hd1', _⟩ | ⟨_, _, _, v1, v2, hg1, hg2, hlt⟩)
            · exact absurd h hne
            · exact absurd hd1' hd1
            · exact ⟨v1, v2, hg1, hg2, hlt⟩
        · rw [if_neg (by rw [Bool.and_eq_true]; exact fun h => hv2 h.2)]
          simp only [Bool.false_eq_true, false_iff]
          rintro (h | ⟨hd1', _⟩ | ⟨_, _, hv2', _⟩)
          · exact absurd h hne
          · exact absurd hd1' hd1
          · exact absurd hv2' hv2
      · rw [if_neg (by rw [Bool.and_eq_true]; exact fun h => hv1 h.1)]
        simp only [Bool.false_eq_true, false_iff]
        rintro (h | ⟨hd1', _⟩ | ⟨_, hv1', _⟩)
        · exact absurd h hne
        · exact absurd hd1' hd1
        · exact absurd hv1' hv1

theorem zoom_similar_iff_witness :
    (areParamsSimilar defaultOpts (.obj zoomP1) (.obj zoomP2) "zoom" = true ↔
      (zoomP1 = [] ∧ zoomP2 = []) ∨
      ((objGet zoomP1 "direction").truthy = true ∧
        (objGet zoomP2 "direction").truthy = true ∧
        jsStrictEq (objGet zoomP1 "direction") (objGet zoomP2 "direction") = true ∧
        (∃ d1 d2 : ℚ, (objGet zoomP1 "distance").toNumber = some d1 ∧
          (objGet zoomP2 "distance").toNumber = some d2 ∧ |d1 - d2| < 3/10)) ∨
      (¬((objGet zoomP1 "direction").truthy = true ∧
          (objGet zoomP2 "direction").truthy = true) ∧
        (objGet zoomP1 "value").truthy = true ∧
        (objGet zoomP2 "value").truthy = true ∧
        (∃ v1 v2 : ℚ, (objGet zoomP1 "value").toNumber = some v1 ∧
          (objGet zoomP2 "value").toNumber = some v2 ∧ |v1 - v2| < 3/10))) :=
  zoom_similar_iff defaultOpts zoomP1 zoomP2 rfl rfl rfl rfl

set_option maxRecDepth 8192 in
/-- Numeric strings coerce in the zoom rule: direction-equal zoom
parameters with distance "0.1" against "0.2" are judged similar, since
ToNumber gives 1/10 and 2/10 whose difference is below 3/10. -/
theorem zoom_string_distance_similar :
    areParamsSimilar defaultOpts (.obj zoomP1) (.obj zoomP2) "zoom" = true := by
  have h1 : jsStringToNumber "0.1" = some (Rat.divInt 1 10) := by decide
  have h2 : jsStringToNumber "0.2" = some (Rat.divInt 2 10) := by decide
  have habs : |Rat.divInt 1 10 - Rat.divInt 2 10| < 3/10 := by
    rw [Rat.divInt_eq_div, Rat.divInt_eq_div, abs_sub_lt_iff]
    constructor <;> norm_num
  have habslt : absDiffLt (.str "0.1") (.str "0.2") (3/10) = true := by
    unfold absDiffLt
    simp only [JVal.toNumber, h1, h2]
    exact decide_eq_true habs
  have hfinal : areParamsSimilar defaultOpts (.obj zoomP1) (.obj zoomP2) "zoom" =
      (jsStrictEq (JVal.str "in") (JVal.str "in") &&
        absDiffLt (.str "0.1") (.str "0.2") (3/10)) := rfl
  rw [hfinal, habslt]
  decide

set_option maxRecDepth 8192 in
/-- Sanity checks of the StringToNumber model on representative JS
inputs (values written with `Rat.divInt` to stay in kernel-evaluable
form). -/
theorem jsStringToNumber_checks :
    jsStringToNumber "0.1" = some (Rat.divInt 1 10) ∧
    jsStringToNumber "" = some 0 ∧
    jsStringToNumber "  45  " = some (Rat.divInt 45 1) ∧
    jsStringToNumber "-2.5e1" = some (Rat.divInt (-25) 1) ∧
    jsStringToNumber "1." = some (Rat.divInt 1 1) ∧
    jsStringToNumber ".5" = some (Rat.divInt 1 2) ∧
    jsStringToNumber "0x10" = some (Rat.divInt 16 1) ∧
    jsStringToNumber "abc" = none ∧
    jsStringToNumber "1 2" = none ∧
    jsStringToNumber "Infinity" = none ∧
    jsStringToNumber "1,2" = none := by
  decide

/-! ## C2 — pending command resolved exactly once -/

/-- C2: a registered pending command is resolved exactly once — by the
first matching response, or, when no response arrives before the
per-command timer fires, by a single Timeout resolution — and every
duplicate or late response for the same id after that point is discarded
without effect and without any error outcome (the step function is total
and leaves a settled handle untouched). -/
theorem pending_command_resolved_once (pre post : List WsEvent)
    (hpre : WsEvent.timeoutFire ∉ pre) :
    (runCmd (pre ++ WsEvent.timeoutFire :: post)).handle =
      some ((firstResponseData pre).elim Outcome.timeout Outcome.response) ∧
    (runCmd (pre ++ WsEvent.timeoutFire :: post)).effectiveResolves = 1 := by
  cases pre with
  | nil =>
      have hstep : stepCmd initialCmdState .timeoutFire =
          ⟨true, some .timeout, 1⟩ := rfl
      unfold runCmd
      rw [List.nil_append, List.foldl_cons, hstep]
      simpa using foldl_settled post ⟨true, some .timeout, 1⟩ .timeout rfl
  | cons e es =>
      cases e with
      | timeoutFire => exact absurd (List.mem_cons_self _ _) hpre
      | response d =>
          have hstep : stepCmd initialCmdState (.response d) =
              ⟨false, some (.response d), 1⟩ := rfl
          unfold runCmd
          rw [List.cons_append, List.foldl_cons, hstep]
          simpa [firstResponseData] using
            foldl_settled (es ++ WsEvent.timeoutFire :: post)
              ⟨false, some (.response d), 1⟩ (.response d) rfl

theorem pending_command_resolved_once_witness :
    (runCmd ([] ++ WsEvent.timeoutFire :: [WsEvent.response .null])).handle =
      some ((firstResponseData []).elim Outcome.timeout Outcome.response) ∧
    (runCmd ([] ++ WsEvent.timeoutFire :: [WsEvent.response .null])).effectiveResolves
      = 1 :=
  pending_command_resolved_once [] [WsEvent.response .null] (by simp)

/-! ## C8 — response matching and success classification -/

/-- C8: for every inbound response object, the extracted correlation id
is the first truthy value among the known locations tried in the code's
fixed priority order (`command_id`, `commandId`, `command.id`,
`result.command_id`, `id`), and the response is classified successful
exactly when `success === true`, or `status === "success"`, or
`result.success === true`, or `type === "mcp.response"` with
`status === "success"`. -/
theorem response_matching_follows_spec (fields : List (String × JVal)) :
    (∀ v : JVal,
      (idLocators.map (fun f => f (.obj fields))).find? JVal.truthy = some v →
        extractCommandId (.obj fields) = v) ∧
    (isSuccessResp (.obj fields) = true ↔ specSuccess (.obj fields)) := by
  constructor
  · intro v hv
    simp only [idLocators, List.map_cons, List.map_nil] at hv
    unfold extractCommandId jsOr
    by_cases t1 : ((JVal.obj fields).get "command_id").truthy = true
    · rw [List.find?_cons_of_pos _ t1] at hv
      rw [if_pos t1]
      exact (Option.some_inj.mp hv)
    · rw [List.find?_cons_of_neg _ (by simpa using t1)] at hv
      rw [if_neg (by simpa using t1)]
      by_cases t2 : ((JVal.obj fields).get "commandId").truthy = true
      · rw [List.find?_cons_of_pos _ t2] at hv
        rw [if_pos t2]
        exact (Option.some_inj.mp hv)
      · rw [List.find?_cons_of_neg _ (by simpa using t2)] at hv
        rw [if_neg (by simpa using t2)]
        by_cases t3 : (jsAnd ((JVal.obj fields).get "command")
            (((JVal.obj fields).get "command").get "id")).truthy = true
        · rw [List.find?_cons_of_pos _ t3] at hv
          rw [if_pos t3]
          exact (Option.some_inj.mp hv)
        · rw [List.find?_cons_of_neg _ (by simpa using t3)] at hv
          rw [if_neg (by simpa using t3)]
          by_cases t4 : (jsAnd ((JVal.obj fields).get "result")
              (((JVal.obj fields).get "result").get "command_id")).truthy = true
          · rw [List.find?_cons_of_pos _ t4] at hv
            rw [if_pos t4]
            exact (Option.some_inj.mp hv)
          · rw [List.find?_cons_of_neg _ (by simpa using t4)] at hv
            rw [if_neg (by simpa using t4)]
            by_cases t5 : ((JVal.obj fields).get "id").truthy = true
            · rw [List.find?_cons_of_pos _ t5] at hv
              exact (Option.some_inj.mp hv)
            · rw [List.find?_cons_of_neg _ (by simpa using t5)] at hv
              simp at hv
  · unfold isSuccessResp specSuccess
    simp only [Bool.or_eq_true, Bool.and_eq_true, jsStrictEq_bool_true_iff,
      jsStrictEq_str_iff]
    tauto

theorem response_matching_follows_spec_witness :
    extractCommandId
      (.obj [("commandId", .str "cmd_1"), ("status", .str "success")]) =
      .str "cmd_1" ∧
    (isSuccessResp
        (.obj [("commandId", .str "cmd_1"), ("status", .str "success")]) = true ↔
      specSuccess
        (.obj [("commandId", .str "cmd_1"), ("status", .str "success")])) :=
  ⟨(response_matching_follows_spec
      [("commandId", .str "cmd_1"), ("status", .str "success")]).1
      (.str "cmd_1") rfl,
   (response_matching_follows_spec
      [("commandId", .str "cmd_1"), ("status", .str "success")]).2⟩

/-! ## C9 — duplicate-id registration -/

/-- C9 counterexample: registering a command whose id is already pending
does not fail with any DuplicateId outcome and does not leave the
existing entry unchanged — `Map.set` silently overwrites, so the stored
entry for the id afterwards is the new one (timestamp 200), not the
original (timestamp 100). -/
theorem duplicate_id_overwrites :
    pendingGet (registerPending [("cmd_1", ⟨100, .null⟩)] "cmd_1"
      ⟨200, .null⟩) "cmd_1" = some ⟨200, .null⟩ ∧
    (PendingEntry.mk 200 .null).timestamp ≠ (PendingEntry.mk 100 .null).timestamp := by
  exact ⟨rfl, by decide⟩

/-- C9 amended: registering an outgoing command whose id is already
pending silently replaces the pending entry for that id with the new one
and leaves every other id's entry unchanged; registration is total — the
collision raises no error and cannot crash the engine. -/
theorem register_overwrites_pending (m : List (String × PendingEntry))
    (k k' : String) (v : PendingEntry) (hne : k' ≠ k) :
    pendingGet (registerPending m k v) k = some v ∧
    pendingGet (registerPending m k v) k' = pendingGet m k' := by
  induction m with
  | nil =>
      have hk : (k == k') = false := by
        simp only [beq_eq_false_iff_ne, ne_eq]
        exact fun h => hne h.symm
      exact ⟨by simp [registerPending, pendingGet],
        by simp [registerPending, pendingGet, hk]⟩
  | cons p rest ih =>
      obtain ⟨a, b⟩ := p
      by_cases ha : (a == k) = true
      · have hak : a = k := by simpa using ha
        subst hak
        have hk' : (a == k') = false := by
          simp only [beq_eq_false_iff_ne, ne_eq]
          exact fun h => hne h.symm
        exact ⟨by simp [registerPending, pendingGet],
          by simp [registerPending, pendingGet, hk']⟩
      · by_cases ha' : (a == k') = true
        · exact ⟨by simp [registerPending, pendingGet, ha, ih.1],
            by simp [registerPending, pendingGet, ha, ha']⟩
        · exact ⟨by simp [registerPending, pendingGet, ha, ih.1],
            by simp [registerPending, pendingGet, ha, ha', ih.2]⟩

theorem register_overwrites_pending_witness :
    pendingGet (registerPending [] "a" ⟨1, .null⟩) "a" = some ⟨1, .null⟩ ∧
    pendingGet (registerPending [] "a" ⟨1, .null⟩) "b" = pendingGet [] "b" :=
  register_overwrites_pending [] "a" "b" ⟨1, .null⟩ (by decide)

/-! ## C3 — reconnect scheduling -/

/-- Auxiliary characterization of the repository's fixed-delay reconnect
variant: `MCPClient.scheduleReconnect` (like
`WebSocketManager.handleReconnect`) arms the same configured delay
(`reconnectDelay || 3000`) for every attempt, increments the attempt
counter on each scheduled attempt, and schedules nothing once the
counter has reached `maxReconnectAttempts || 5`.  The engine's
exponential-backoff reconnect cycle lives in `ModelControlService` and
is the subject of the C3 theorem below. -/
theorem reconnect_fixed_delay (cfg : MCPConfig) (st st2 : MCPState)
    (hauto : cfg.autoReconnect = true)
    (hlt : st.reconnectAttempts <
      (if cfg.maxReconnectAttempts = 0 then 5 else cfg.maxReconnectAttempts))
    (hge : (if cfg.maxReconnectAttempts = 0 then 5 else cfg.maxReconnectAttempts) ≤
      st2.reconnectAttempts) :
    scheduleReconnect cfg st =
      some ((if cfg.reconnectDelay = 0 then 3000 else cfg.reconnectDelay),
        { st with
            status := .reconnecting
            connectedRef := false
            reconnectAttempts := st.reconnectAttempts + 1
            pingTimerActive := false
            reconnectTimerActive := true }) ∧
    scheduleReconnect cfg st2 = none := by
  constructor
  · unfold scheduleReconnect
    rw [if_neg]
    · simp [clearTimers, setStatus]
    · simp [hauto]
      exact hlt
  · unfold scheduleReconnect
    rw [if_pos]
    simp [hauto]
    exact hge

theorem reconnect_fixed_delay_witness :
    scheduleReconnect {} ⟨.error, false, 1, 0, false, false, .null⟩ =
      some (3000, ⟨.reconnecting, false, 2, 0, false, true, .null⟩) ∧
    scheduleReconnect {} ⟨.error, false, 5, 0, false, false, .null⟩ = none :=
  reconnect_fixed_delay {} ⟨.error, false, 1, 0, false, false, .null⟩
    ⟨.error, false, 5, 0, false, false, .null⟩ rfl (by decide) (by decide)

theorem mcsDelays_eq (k : ℕ) : ∀ (a : ℕ) (st : MCSState),
    st.reconnectAttempts = a → a + k ≤ MAX_RECONNECT_ATTEMPTS →
    mcsDelays k st =
      (List.range k).map fun n => min (1000 * 2 ^ (a + n)) 30000 := by
  induction k with
  | zero => intro a st _ _; rfl
  | succ k ih =>
      intro a st ha hk
      have hlta : a < MAX_RECONNECT_ATTEMPTS := by omega
      have h1 : (handleCloseMCS st).1 = some (min (1000 * 2 ^ a) 30000) := by
        simp [handleCloseMCS, ha, hlta]
      have h2 : ((handleCloseMCS st).2).reconnectAttempts = a := by
        simp [handleCloseMCS, ha, hlta]
      have hfire : (reconnectTimerFire (handleCloseMCS st).2).reconnectAttempts
          = a + 1 := by
        simp [reconnectTimerFire, h2]
      unfold mcsDelays
      simp only [h1]
      rw [ih (a + 1) _ hfire (by omega)]
      rw [List.range_succ_eq_map, List.map_cons, List.map_map]
      have hfun : ((fun n => min (1000 * 2 ^ (a + n)) 30000) ∘ Nat.succ) =
          (fun n => min (1000 * 2 ^ (a + 1 + n)) 30000) := by
        funext n
        simp only [Function.comp_apply, Nat.succ_eq_add_one]
        have hx : a + (n + 1) = a + 1 + n := by omega
        rw [hx]
      rw [hfun]
      rfl

/-- C3: on every unexpected connection closure with the attempt counter
below the maximum, `ModelControlService` schedules a reconnect after
`delay = min(1000 * 2^attempts, 30000)` — base delay 1000 ms doubled on
each attempt, capped at 30000 ms — so successive failed connection
cycles from a reset counter arm the delay sequence
`min(1000 * 2^n, 30000)` for n = 0, 1, 2, ...; the attempt counter
increments by one per scheduled attempt (in the armed timer's
callback); no reconnect is scheduled once the counter has reached
`MAX_RECONNECT_ATTEMPTS` (5); and a successful open resets the counter
to 0. -/
theorem reconnect_backoff_exponential (st stMax : MCSState) (k : ℕ)
    (hlt : st.reconnectAttempts < MAX_RECONNECT_ATTEMPTS)
    (hge : MAX_RECONNECT_ATTEMPTS ≤ stMax.reconnectAttempts)
    (hk : k ≤ MAX_RECONNECT_ATTEMPTS) :
    (handleCloseMCS st).1 =
      some (min (1000 * 2 ^ st.reconnectAttempts) 30000) ∧
    (reconnectTimerFire (handleCloseMCS st).2).reconnectAttempts =
      st.reconnectAttempts + 1 ∧
    mcsDelays k (handleOpenMCS st) =
      (List.range k).map (fun n => min (1000 * 2 ^ n) 30000) ∧
    (handleCloseMCS stMax).1 = none ∧
    (handleOpenMCS st).reconnectAttempts = 0 := by
  refine ⟨?_, ?_, ?_, ?_, ?_⟩
  · simp [handleCloseMCS, hlt]
  · simp [handleCloseMCS, hlt, reconnectTimerFire]
  · have h0 : (handleOpenMCS st).reconnectAttempts = 0 := by
      simp [handleOpenMCS]
    simpa using mcsDelays_eq k 0 (handleOpenMCS st) h0 (by omega)
  · simp [handleCloseMCS, Nat.not_lt.mpr hge]
  · simp [handleOpenMCS]

theorem reconnect_backoff_exponential_witness :
    (handleCloseMCS ⟨.connected, none, 2, false⟩).1 = some 4000 ∧
    (reconnectTimerFire
      (handleCloseMCS ⟨.connected, none, 2, false⟩).2).reconnectAttempts = 3 ∧
    mcsDelays 5 (handleOpenMCS ⟨.connected, none, 2, false⟩) =
      [1000, 2000, 4000, 8000, 16000] ∧
    (handleCloseMCS ⟨.error, none, 5, false⟩).1 = none ∧
    (handleOpenMCS ⟨.connected, none, 2, false⟩).reconnectAttempts = 0 :=
  reconnect_backoff_exponential ⟨.connected, none, 2, false⟩
    ⟨.error, none, 5, false⟩ 5 (by decide) (by decide) (by decide)

/-! ## C7 — open handler -/

/-- C7 counterexample: `handleOpen` leaves the connection status exactly
as it was (here `connecting`) — the status does not become `connected`
at the point of establishment; that transition is deferred to the
`welcome`/`connection_established` message handlers. -/
theorem open_does_not_set_connected :
    (handleOpen {} 500 ⟨.connecting, false, 3, 0, false, false, .null⟩).status =
      .connecting ∧
    MCPStatus.connecting ≠ MCPStatus.connected := by
  exact ⟨rfl, by decide⟩

/-- C7 amended: when the transport reports open, the reconnect-attempt
counter resets to 0 and the keepalive (ping) timer starts, but the
status is left unchanged; the status becomes `connected` only when the
subsequent `welcome` (or `connection_established`) message is
handled. -/
theorem open_resets_attempts_starts_ping (cfg : MCPConfig) (now : ℕ)
    (st : MCPState) (message : JVal) (hping : 0 < cfg.pingInterval) :
    (handleOpen cfg now st).reconnectAttempts = 0 ∧
    (handleOpen cfg now st).pingTimerActive = true ∧
    (handleOpen cfg now st).status = st.status ∧
    (handleWelcome message (handleOpen cfg now st)).status = .connected := by
  unfold handleOpen startPingTimer clearTimers handleWelcome setStatus
  rw [if_pos hping]
  exact ⟨rfl, rfl, rfl, rfl⟩

theorem open_resets_attempts_starts_ping_witness :
    (handleOpen {} 500 ⟨.connecting, false, 3, 0, false, false, .null⟩).reconnectAttempts = 0 ∧
    (handleOpen {} 500 ⟨.connecting, false, 3, 0, false, false, .null⟩).pingTimerActive = true ∧
    (handleOpen {} 500 ⟨.connecting, false, 3, 0, false, false, .null⟩).status =
      (⟨.connecting, false, 3, 0, false, false, .null⟩ : MCPState).status ∧
    (handleWelcome (.obj [])
      (handleOpen {} 500 ⟨.connecting, false, 3, 0, false, false, .null⟩)).status =
      .connected :=
  open_resets_attempts_starts_ping {} 500
    ⟨.connecting, false, 3, 0, false, false, .null⟩ (.obj []) (by decide)

/-! ## C4 — queue replacement for focus/reset -/

/-- C4 counterexample: with the queue holding a focus entry followed by a
zoom entry, enqueuing a new focus removes the old focus but pushes the
new one at the tail — the resulting operation order is
["zoom", "focus"], not the claimed same-position result
["focus", "zoom"]. -/
theorem focus_replacement_not_in_place :
    (enqueueCommand defaultOpts [] 1000
        [⟨"q1", "focus", .obj [("targetId", .str "A")], 0⟩,
         ⟨"q2", "zoom", .obj [("scale", .num 2)], 0⟩]
        "focus" (.obj [("targetId", .str "B")]) "q3").map QCmd.operation =
      ["zoom", "focus"] ∧
    (["zoom", "focus"] : List String) ≠ ["focus", "zoom"] := by
  exact ⟨rfl, by decide⟩

/-- C4 amended: enqueuing a focus command while an entry of the same kind
sits in the queue removes that entry and appends the new command at the
tail of the queue (FIFO order of the other entries preserved); in
particular, enqueuing focus(targetA) then focus(targetB) before either
executes leaves exactly one queued focus entry, with parameters
targetB. -/
theorem focus_replacement_latest_wins (opts : CSMOptions)
    (executedCommands : List ExecRecord) (now : ℕ) (q0 : List QCmd)
    (a b ida idb : String)
    (hq : ∀ c ∈ q0, c.operation ≠ "focus")
    (hex1 : isCommandExecuted opts executedCommands "focus"
      (.obj [("targetId", .str a)]) now = false)
    (hex2 : isCommandExecuted opts executedCommands "focus"
      (.obj [("targetId", .str b)]) now = false) :
    enqueueCommand opts executedCommands now
        (enqueueCommand opts executedCommands now q0 "focus"
          (.obj [("targetId", .str a)]) ida)
        "focus" (.obj [("targetId", .str b)]) idb =
      q0 ++ [⟨idb, "focus", .obj [("targetId", .str b)], now⟩] ∧
    (enqueueCommand opts executedCommands now
        (enqueueCommand opts executedCommands now q0 "focus"
          (.obj [("targetId", .str a)]) ida)
        "focus" (.obj [("targetId", .str b)]) idb).filter
      (fun c => c.operation == "focus") =
      [⟨idb, "focus", .obj [("targetId", .str b)], now⟩] := by
  have hq_any : ∀ p : JVal, (q0.any fun cmd => cmd.operation == "focus" &&
      areParamsSimilar opts cmd.params p "focus") = false := by
    intro p
    rw [List.any_eq_false]
    intro c hc
    have hop : (c.operation == "focus") = false := by
      simpa using hq c hc
    simp [hop]
  have hstep1 : enqueueCommand opts executedCommands now q0 "focus"
      (.obj [("targetId", .str a)]) ida =
      q0 ++ [⟨ida, "focus", .obj [("targetId", .str a)], now⟩] := by
    unfold enqueueCommand
    rw [if_neg (by simp [hex1])]
    simp only [if_pos (by rfl : ("focus" == "focus" || "focus" == "reset") = true)]
    rw [removeFirstSameOp_no_match q0 "focus" hq]
    rw [if_neg (by simp [hq_any])]
  have hstep2 : enqueueCommand opts executedCommands now
      (q0 ++ [⟨ida, "focus", .obj [("targetId", .str a)], now⟩]) "focus"
      (.obj [("targetId", .str b)]) idb =
      q0 ++ [⟨idb, "focus", .obj [("targetId", .str b)], now⟩] := by
    unfold enqueueCommand
    rw [if_neg (by simp [hex2])]
    simp only [if_pos (by rfl : ("focus" == "focus" || "focus" == "reset") = true)]
    rw [removeFirstSameOp_append_match q0 _ "focus" hq rfl]
    rw [if_neg (by simp [hq_any])]
  rw [hstep1, hstep2]
  refine ⟨rfl, ?_⟩
  rw [List.filter_append]
  have hfq : q0.filter (fun c => c.operation == "focus") = [] := by
    rw [List.filter_eq_nil_iff]
    intro c hc
    simpa using hq c hc
  rw [hfq]
  rfl

theorem focus_replacement_latest_wins_witness :
    enqueueCommand defaultOpts [] 0
        (enqueueCommand defaultOpts [] 0 [] "focus"
          (.obj [("targetId", .str "A")]) "q1")
        "focus" (.obj [("targetId", .str "B")]) "q2" =
      [] ++ [⟨"q2", "focus", .obj [("targetId", .str "B")], 0⟩] ∧
    (enqueueCommand defaultOpts [] 0
        (enqueueCommand defaultOpts [] 0 [] "focus"
          (.obj [("targetId", .str "A")]) "q1")
        "focus" (.obj [("targetId", .str "B")]) "q2").filter
      (fun c => c.operation == "focus") =
      [⟨"q2", "focus", .obj [("targetId", .str "B")], 0⟩] :=
  focus_replacement_latest_wins defaultOpts [] 0 [] "A" "B" "q1" "q2"
    (by simp) rfl rfl
